import Mathlib

/-!
Verification of the MiniFlow engine-logic core: a shallow embedding of the
condition evaluator, gateway resolver, and task-assignment strategies defined
inline in `scripts/test_engine_logic.py`, together with theorems settling the
specification's claims about them.

Python scalars that occur in the code (booleans, ints, strings) are modelled by
an explicit `Value` type; Python dictionaries keyed by strings are modelled by
association lists with first-match lookup.
-/

namespace MiniFlow

/-- A Python scalar value as it occurs in variable contexts: a boolean, an
integer, or a string. -/
inductive Value where
  | bool : Bool → Value
  | int : Int → Value
  | str : String → Value
deriving DecidableEq, Repr

/-- Python truthiness of a value: `False`, `0` and `""` are falsy, everything
else is truthy. -/
def Value.truthy : Value → Bool
  | .bool b => b
  | .int n => n != 0
  | .str s => s != ""

/-- Python equality comparison `v == True`. Since `bool` is a subclass of
`int` in Python, `1 == True` holds; no string equals `True`. -/
def Value.pyEqTrue : Value → Bool
  | .bool b => b
  | .int n => n == 1
  | .str _ => false

/-- Python equality comparison `v == False`: `False == False` and `0 == False`
hold; no string equals `False`. -/
def Value.pyEqFalse : Value → Bool
  | .bool b => !b
  | .int n => n == 0
  | .str _ => false

/-- A variable context: a Python dict from variable names to values, modelled
as an association list (first binding wins, as dict keys are unique). -/
def VarCtx : Type := List (String × Value)

/-- Python `dict.get(key)`: `some` the bound value, `none` when absent. -/
def VarCtx.get (vars : VarCtx) (key : String) : Option Value :=
  List.lookup key vars

/-- Python `dict.get(key, default)`. -/
def VarCtx.getD (vars : VarCtx) (key : String) (default : Value) : Value :=
  (VarCtx.get vars key).getD default

/-- The condition evaluator `evaluate_condition(condition, vars)` from
`test_engine_logic.py`: an empty condition is true; the four literal
comparison strings on the variable `approved` (bare and `${}` form, `== true`
and `== false`) are evaluated against the context, with default `False` for
the `== true` branch (`vars.get("approved", False) == True`) and default
`True` for the `== false` branch (`vars.get("approved", True) == False`);
every other string evaluates to true. -/
def evaluate_condition (condition : String) (vars : VarCtx) : Bool :=
  if condition = "" then
    true
  else if condition = "approved == true" || condition = "${approved} == true" then
    (VarCtx.getD vars "approved" (Value.bool false)).pyEqTrue
  else if condition = "approved == false" || condition = "${approved} == false" then
    (VarCtx.getD vars "approved" (Value.bool true)).pyEqFalse
  else
    true

/-- A flow edge of a process definition: source node id (`from` in the JSON,
a reserved word in Lean), target node id, and an optional condition string. -/
structure Flow where
  from' : String
  to' : String
  condition : Option String
deriving DecidableEq, Repr

/-- A gateway node as consumed by `evaluate_gateway`: its node id and the
optional `gatewayType` entry of its `props` dict. -/
structure Gateway where
  id : String
  gatewayType : Option String
deriving DecidableEq, Repr

/-- Python `gateway["props"].get("gatewayType", "exclusive")`: the gateway type with
its default. -/
def Gateway.geType (g : Gateway) : String :=
  g.gatewayType.getD "exclusive"

/-- The condition check inlined in both the exclusive and the inclusive branch
of `evaluate_gateway`:
`not condition or (condition == "${approved} == true" and vars.get("approved"))`,
where `condition = flow.get("condition", "")`. An absent `approved` gives
Python `None`, which is falsy. -/
def gateway_condition_check (flow : Flow) (vars : VarCtx) : Bool :=
  let condition := flow.condition.getD ""
  condition = "" ||
    (condition = "${approved} == true" &&
      (match VarCtx.get vars "approved" with
       | some v => v.truthy
       | none => false))

/-- The exclusive branch of `evaluate_gateway`: the `for flow in
outgoing_flows` loop that returns `[flow["to"]]` at the first flow passing the
inline check and `[]` when the loop finishes. -/
def exclusive_first (flows : List Flow) (vars : VarCtx) : List String :=
  match flows with
  | [] => []
  | f :: fs =>
    if gateway_condition_check f vars then [f.to']
    else exclusive_first fs vars

/-- The inclusive branch of `evaluate_gateway`: the loop appending `flow["to"]`
for every flow passing the inline check. -/
def inclusive_collect (flows : List Flow) (vars : VarCtx) : List String :=
  match flows with
  | [] => []
  | f :: fs =>
    if gateway_condition_check f vars then f.to' :: inclusive_collect fs vars
    else inclusive_collect fs vars

/-- The gateway resolver `evaluate_gateway(gateway, flows, vars)` from
`test_engine_logic.py`: filter the flows leaving the gateway, then dispatch on
the gateway type; an unrecognized type falls through to `return []`. -/
def evaluate_gateway (gateway : Gateway) (flows : List Flow) (vars : VarCtx) :
    List String :=
  let outgoing_flows := flows.filter (fun f => f.from' = gateway.id)
  if gateway.geType = "exclusive" then
    exclusive_first outgoing_flows vars
  else if gateway.geType = "parallel" then
    outgoing_flows.map (fun f => f.to')
  else if gateway.geType = "inclusive" then
    inclusive_collect outgoing_flows vars
  else
    []

/-- A candidate user as used by the assignment strategies. -/
structure User where
  id : Int
  username : String
  role : String
deriving DecidableEq, Repr

/-- A task as used by the assignment strategies: only its priority matters. -/
structure Task where
  priority : Int
deriving DecidableEq, Repr

/-- Python `calculate_score(user, task)` from `priority_assignment`: role weight from
the dict `{"admin": 100, "manager": 80, "user": 60}` with default `40`, plus
`30` when `task["priority"] >= 80`. -/
def calculate_score (user : User) (task : Task) : Int :=
  let score : Int :=
    if user.role = "admin" then 100
    else if user.role = "manager" then 80
    else if user.role = "user" then 60
    else 40
  if task.priority ≥ 80 then score + 30 else score

/-- Python `priority_assignment(task, users)`: `None` on an empty list; otherwise the
head of the list sorted by score with `reverse=True`. Python `list.sort` is
stable and `reverse=True` keeps equal keys in list order, so the head of the
sorted list is the first list element attaining the maximal score, which is
what this recursion computes: each element is kept unless a strictly greater
score occurs later. -/
def priority_assignment (task : Task) (users : List User) : Option User :=
  match users with
  | [] => none
  | u :: us =>
    match priority_assignment task us with
    | none => some u
    | some v =>
      if calculate_score v task > calculate_score u task then some v else some u

/-- The rotation state of `RoundRobinAssignment`: the `last_index` dict, a map
from node key to the last assigned index (absent key reads as `-1`). -/
def RRState : Type := String → Option Int

/-- The empty `last_index` dict a fresh `RoundRobinAssignment` starts with. -/
def rr_empty : RRState := fun _ => none

/-- Python `RoundRobinAssignment.assign(task, users, node_key)`: `None` on an empty
candidate list; otherwise advance the per-key index by one modulo the
candidate count (absent key starts from `-1`), store it, and return the
candidate at the new index. Returns the assigned user together with the
updated state. -/
def rr_assign (st : RRState) (users : List User) (node_key : String) :
    Option User × RRState :=
  if users.isEmpty then (none, st)
  else
    let current : Int := (st node_key).getD (-1)
    let next : Int := (current + 1) % (users.length : Int)
    (users.get? next.toNat, fun k => if k = node_key then some next else st k)

/-- Run `assign` `n` times against the same candidate list and node key,
collecting the returned users in call order. -/
def rr_run (users : List User) (node_key : String) : Nat → RRState → List (Option User)
  | 0, _ => []
  | n + 1, st =>
    let r := rr_assign st users node_key
    r.1 :: rr_run users node_key n r.2

/-! ## Shared concrete data

The gateway, flows, variable context, users and task used by the test script
itself; they reappear as the concrete inputs of witnesses. -/

/-- The exclusive gateway node of the script's gateway test. -/
def gw1 : Gateway := { id := "gateway1", gatewayType := some "exclusive" }

/-- The three outgoing flows of the script's gateway test. -/
def flowsT : List Flow :=
  [ { from' := "gateway1", to' := "end_success", condition := some "${approved} == true" },
    { from' := "gateway1", to' := "end_reject", condition := some "${approved} == false" },
    { from' := "gateway1", to' := "end_default", condition := some "" } ]

/-- The variable context `{"approved": True}` of the script's gateway test. -/
def ctxT : VarCtx := [("approved", Value.bool true)]

/-- The variable context of the script's condition-evaluation test. -/
def ctxVars : VarCtx :=
  [("approved", Value.bool true), ("amount", Value.int 1000), ("status", Value.str "pending")]

/-- Candidate `user1` of the script's assignment test. -/
def demoU1 : User := { id := 1, username := "user1", role := "user" }

/-- Candidate `user2` of the script's assignment test. -/
def demoU2 : User := { id := 2, username := "user2", role := "manager" }

/-- Candidate `admin1` of the script's assignment test. -/
def demoU3 : User := { id := 3, username := "admin1", role := "admin" }

/-- The candidate list of the script's assignment test. -/
def demoUsers : List User := [demoU1, demoU2, demoU3]

/-- The priority-80 task of the script's assignment test. -/
def task80 : Task := { priority := 80 }

/-! ## Helper lemmas -/

/-- The parallel branch of the resolver returns the targets of the outgoing
flows, in order. -/
theorem evaluate_gateway_parallel_eq (gw : Gateway) (flows : List Flow) (vars : VarCtx)
    (h : gw.geType = "parallel") :
    evaluate_gateway gw flows vars
      = (flows.filter (fun f => f.from' = gw.id)).map (fun f => f.to') := by
  simp [evaluate_gateway, h]

/-- Rewriting the condition of every flow changes neither which flows leave the
gateway nor their targets. -/
theorem map_condition_update_targets (flows : List Flow) (gid : String)
    (conds : Flow → Option String) :
    ((flows.map (fun f => { f with condition := conds f })).filter
        (fun f => f.from' = gid)).map (fun f => f.to')
      = (flows.filter (fun f => f.from' = gid)).map (fun f => f.to') := by
  induction flows with
  | nil => rfl
  | cons f fs ih =>
    simp only [List.map_cons, List.filter_cons]
    by_cases hf : f.from' = gid
    · simp [hf, ih]
    · simp [hf, ih]

/-! ## Claims about the condition evaluator -/

/-- C10: an empty condition always evaluates to true, and a flow carrying no
condition always passes the resolver's eligibility check, for every variable
context. -/
theorem empty_condition_always_eligible :
    (∀ vars : VarCtx, evaluate_condition "" vars = true)
    ∧ ∀ (src tgt : String) (vars : VarCtx),
        gateway_condition_check { from' := src, to' := tgt, condition := none } vars = true := by
  exact ⟨fun _ => rfl, fun _ _ _ => rfl⟩

/-- C9: every non-empty condition string other than the four recognized
comparison strings evaluates to true (the fail-open policy), for every
variable context; in particular no expression makes the evaluator fail, it
being a total function. -/
theorem unrecognized_condition_fails_open (condition : String) (vars : VarCtx)
    (h0 : condition ≠ "")
    (h1 : condition ≠ "approved == true") (h2 : condition ≠ "${approved} == true")
    (h3 : condition ≠ "approved == false") (h4 : condition ≠ "${approved} == false") :
    evaluate_condition condition vars = true := by
  simp [evaluate_condition, h0, h1, h2, h3, h4]

/-- Witness for C9 at the script's own test case `unknown_condition`. -/
theorem unrecognized_condition_fails_open_witness :
    evaluate_condition "unknown_condition" ctxVars = true :=
  unrecognized_condition_fails_open "unknown_condition" ctxVars
    (by decide) (by decide) (by decide) (by decide) (by decide)

/-- C2 counterexample: with `approved` absent from the context, the code
evaluates `approved == false` to `false`, not `true` as the claim states:
the `== false` branch compares against default `True`
(`vars.get("approved", True) == False`), not the boolean default `False`. -/
theorem absent_false_comparison_counterexample :
    ¬ (evaluate_condition "approved == false" ([] : VarCtx) = true) := by decide

/-- C2 (amended): a recognized comparison referencing `approved` while it is
absent from the context evaluates to `false` rather than failing: the
`== true` branch uses default `False` (so `False == True` is false) and the
`== false` branch uses default `True` (so `True == False` is false). -/
theorem absent_variable_comparison_defaults (vars : VarCtx)
    (h : VarCtx.get vars "approved" = none) :
    evaluate_condition "approved == true" vars = false
    ∧ evaluate_condition "${approved} == true" vars = false
    ∧ evaluate_condition "approved == false" vars = false
    ∧ evaluate_condition "${approved} == false" vars = false := by
  refine ⟨?_, ?_, ?_, ?_⟩ <;>
    simp [evaluate_condition, VarCtx.getD, h, Value.pyEqTrue, Value.pyEqFalse]

/-- Witness for the amended C2 at the empty context. -/
theorem absent_variable_comparison_defaults_witness :
    evaluate_condition "approved == true" ([] : VarCtx) = false
    ∧ evaluate_condition "${approved} == true" ([] : VarCtx) = false
    ∧ evaluate_condition "approved == false" ([] : VarCtx) = false
    ∧ evaluate_condition "${approved} == false" ([] : VarCtx) = false :=
  absent_variable_comparison_defaults [] rfl

/-! ## Claims about the gateway resolver -/

/-- C3 counterexample: on a gateway whose type is none of exclusive, parallel
or inclusive, the resolver returns the empty list — a normal value, identical
to the no-matching-flow result — rather than failing, even though an
unconditional outgoing flow exists. -/
theorem unknown_gateway_type_counterexample :
    evaluate_gateway { id := "g1", gatewayType := some "custom" }
      [ { from' := "g1", to' := "end1", condition := some "" } ] ([] : VarCtx) = [] := by
  decide

/-- C3 (amended): for every gateway whose type is none of exclusive, parallel
or inclusive, the resolver returns the empty list (it signals no error; the
code has no `UnsupportedGatewayTypeError`). -/
theorem unknown_gateway_type_returns_empty (gw : Gateway) (flows : List Flow) (vars : VarCtx)
    (h1 : gw.geType ≠ "exclusive") (h2 : gw.geType ≠ "parallel")
    (h3 : gw.geType ≠ "inclusive") :
    evaluate_gateway gw flows vars = [] := by
  simp [evaluate_gateway, h1, h2, h3]

/-- Witness for the amended C3 at gateway type `custom`. -/
theorem unknown_gateway_type_returns_empty_witness :
    evaluate_gateway { id := "g1", gatewayType := some "custom" } flowsT ctxT = [] :=
  unknown_gateway_type_returns_empty _ flowsT ctxT (by decide) (by decide) (by decide)

/-- C7: a parallel gateway returns the targets of all its outgoing flows in
declared order, regardless of the condition text attached to them (rewriting
every condition leaves the result unchanged), and returns as many targets as
there are outgoing flows. -/
theorem parallel_gateway_all_targets (gw : Gateway) (flows : List Flow) (vars : VarCtx)
    (conds : Flow → Option String) (h : gw.geType = "parallel") :
    evaluate_gateway gw (flows.map (fun f => { f with condition := conds f })) vars
        = evaluate_gateway gw flows vars
    ∧ evaluate_gateway gw flows vars
        = (flows.filter (fun f => f.from' = gw.id)).map (fun f => f.to')
    ∧ (evaluate_gateway gw flows vars).length
        = (flows.filter (fun f => f.from' = gw.id)).length := by
  have h2 := evaluate_gateway_parallel_eq gw flows vars h
  have h1 := evaluate_gateway_parallel_eq gw
    (flows.map (fun f => { f with condition := conds f })) vars h
  refine ⟨?_, h2, by rw [h2, List.length_map]⟩
  rw [h1, h2, map_condition_update_targets]

/-- Witness for C7 at the script's three-flow gateway with its type set to
parallel, overwriting every condition with an arbitrary string. -/
theorem parallel_gateway_all_targets_witness :
    evaluate_gateway { gw1 with gatewayType := some "parallel" }
        (flowsT.map (fun f => { f with condition := some "ignored" }))
        ctxT
      = evaluate_gateway { gw1 with gatewayType := some "parallel" } flowsT ctxT
    ∧ evaluate_gateway { gw1 with gatewayType := some "parallel" } flowsT ctxT
        = (flowsT.filter (fun f =>
            f.from' = Gateway.id { gw1 with gatewayType := some "parallel" })).map
            (fun f => f.to')
    ∧ (evaluate_gateway { gw1 with gatewayType := some "parallel" } flowsT ctxT).length
        = (flowsT.filter (fun f =>
            f.from' = Gateway.id { gw1 with gatewayType := some "parallel" })).length :=
  parallel_gateway_all_targets { gw1 with gatewayType := some "parallel" } flowsT ctxT
    (fun _ => some "ignored") (by decide)

/-- The exclusive branch returns the target of the first flow passing the
inline check, `find?`-style. -/
theorem exclusive_first_eq_find? (flows : List Flow) (vars : VarCtx) :
    exclusive_first flows vars
      = ((flows.find? (fun f => gateway_condition_check f vars)).elim []
          (fun f => [f.to'])) := by
  induction flows with
  | nil => rfl
  | cons f fs ih =>
    by_cases hf : gateway_condition_check f vars
    · simp [exclusive_first, List.find?_cons_of_pos, hf]
    · simp only [exclusive_first]
      rw [if_neg (by simp [hf]), List.find?_cons_of_neg _ (by simp [hf]), ih]

/-- The inclusive branch keeps exactly the flows passing the inline check,
in order. -/
theorem inclusive_collect_eq_filter (flows : List Flow) (vars : VarCtx) :
    inclusive_collect flows vars
      = (flows.filter (fun f => gateway_condition_check f vars)).map
          (fun f => f.to') := by
  induction flows with
  | nil => rfl
  | cons f fs ih =>
    simp only [inclusive_collect, List.filter_cons]
    by_cases hf : gateway_condition_check f vars
    · simp [hf, ih]
    · simp [hf, ih]

/-- C1 counterexample: the condition `approved == true` of the gateway's only
outgoing flow evaluates to true under the condition evaluator (with
`approved = True` in context), yet the exclusive resolver returns the empty
set, not that flow's target: its inline check recognizes only the `${}` form
of the string. -/
theorem exclusive_evaluator_true_skipped_counterexample :
    evaluate_condition "approved == true" ctxT = true
    ∧ evaluate_gateway gw1
        [ { from' := "gateway1", to' := "A", condition := some "approved == true" } ]
        ctxT = [] := by
  decide

/-- C1 (amended): an exclusive gateway returns the singleton target of the
first outgoing flow passing the resolver's own inline condition check (empty
condition, or literally `${approved} == true` with `approved` truthy), and
the empty list if no outgoing flow passes; the inline check — not the
standalone condition evaluator — decides the match. -/
theorem exclusive_gateway_first_inline_match (gw : Gateway) (flows : List Flow)
    (vars : VarCtx) (h : gw.geType = "exclusive") :
    evaluate_gateway gw flows vars
      = (((flows.filter (fun f => f.from' = gw.id)).find?
          (fun f => gateway_condition_check f vars)).elim [] (fun f => [f.to'])) := by
  simp [evaluate_gateway, h, exclusive_first_eq_find?]

/-- Witness for the amended C1 at the claim's `[false, true, always-true-empty]`
instance: with `approved = True` the conditions `${approved} == false`,
`${approved} == true`, `""` evaluate to false, true, true in declared order,
and the resolver returns exactly the second flow's target, never the
unconditional third. -/
theorem exclusive_gateway_first_inline_match_witness :
    evaluate_gateway gw1
      [ { from' := "gateway1", to' := "end_reject", condition := some "${approved} == false" },
        { from' := "gateway1", to' := "end_success", condition := some "${approved} == true" },
        { from' := "gateway1", to' := "end_default", condition := some "" } ]
      ctxT = ["end_success"] :=
  (exclusive_gateway_first_inline_match gw1
      [ { from' := "gateway1", to' := "end_reject", condition := some "${approved} == false" },
        { from' := "gateway1", to' := "end_success", condition := some "${approved} == true" },
        { from' := "gateway1", to' := "end_default", condition := some "" } ]
      ctxT (by decide)).trans (by decide)

/-- C8 counterexample: the condition `approved == true` of the inclusive
gateway's only outgoing flow evaluates to true under the condition evaluator,
yet the resolver returns the empty set, omitting that flow's target. -/
theorem inclusive_evaluator_true_skipped_counterexample :
    evaluate_condition "approved == true" ctxT = true
    ∧ evaluate_gateway { gw1 with gatewayType := some "inclusive" }
        [ { from' := "gateway1", to' := "B", condition := some "approved == true" } ]
        ctxT = [] := by
  decide

/-- C8 (amended): an inclusive gateway returns, in declared order, the targets
of exactly those outgoing flows that pass the resolver's own inline condition
check (empty condition, or literally `${approved} == true` with `approved`
truthy) — the inline check, not the standalone condition evaluator, decides
the matches — and the empty list when none passes. -/
theorem inclusive_gateway_inline_filter (gw : Gateway) (flows : List Flow)
    (vars : VarCtx) (h : gw.geType = "inclusive") :
    evaluate_gateway gw flows vars
      = ((flows.filter (fun f => f.from' = gw.id)).filter
          (fun f => gateway_condition_check f vars)).map (fun f => f.to') := by
  simp [evaluate_gateway, h, inclusive_collect_eq_filter]

/-- Witness for the amended C8 at the claim's `[true, false, true]` instance:
with `approved = True` the script's three conditions `${approved} == true`,
`${approved} == false`, `""` evaluate to true, false, true in declared order,
and the resolver returns exactly the first and third targets — the two
true-condition targets, order preserved. -/
theorem inclusive_gateway_inline_filter_witness :
    evaluate_condition "${approved} == true" ctxT = true
    ∧ evaluate_condition "${approved} == false" ctxT = false
    ∧ evaluate_condition "" ctxT = true
    ∧ evaluate_gateway { gw1 with gatewayType := some "inclusive" } flowsT ctxT
        = ["end_success", "end_default"] :=
  ⟨by decide, by decide, by decide,
    (inclusive_gateway_inline_filter { gw1 with gatewayType := some "inclusive" }
        flowsT ctxT (by decide)).trans (by decide)⟩

/-- C4 counterexample: on the condition `${approved} == false` with
`approved = False`, the standalone evaluator returns true while the resolver's
inline check returns false — the two condition implementations are not
equivalent. -/
theorem inline_check_vs_evaluator_counterexample :
    evaluate_condition "${approved} == false" [("approved", Value.bool false)] = true
    ∧ gateway_condition_check
        { from' := "g", to' := "t", condition := some "${approved} == false" }
        [("approved", Value.bool false)] = false := by
  decide

/-- C4 (amended): the resolver's inline check agrees with the standalone
evaluator only on the shapes the inline check can accept — an empty condition,
or the literal `${approved} == true` when `approved` is absent or bound to a
boolean; outside these shapes (bare-form comparisons, `== false` comparisons,
unrecognized expressions, non-boolean `approved`) the two disagree, as the
counterexample shows. -/
theorem inline_check_agrees_on_accepting_shapes (f : Flow) (vars : VarCtx)
    (hb : ∀ v, VarCtx.get vars "approved" = some v → ∃ b, v = Value.bool b)
    (hc : f.condition.getD "" = "" ∨ f.condition.getD "" = "${approved} == true") :
    gateway_condition_check f vars = evaluate_condition (f.condition.getD "") vars := by
  rcases hc with hc | hc
  · simp [gateway_condition_check, evaluate_condition, hc]
  · rcases hv : VarCtx.get vars "approved" with _ | v
    · simp [gateway_condition_check, evaluate_condition, hc, VarCtx.getD, hv,
        Value.pyEqTrue]
    · obtain ⟨b, rfl⟩ := hb v hv
      simp [gateway_condition_check, evaluate_condition, hc, VarCtx.getD, hv,
        Value.pyEqTrue, Value.truthy]

/-- Witness for the amended C4 at the script's `${approved} == true` flow and
its boolean context. -/
theorem inline_check_agrees_on_accepting_shapes_witness :
    gateway_condition_check
        { from' := "gateway1", to' := "end_success", condition := some "${approved} == true" }
        ctxT
      = evaluate_condition
          (Option.getD
            (Flow.condition
              { from' := "gateway1", to' := "end_success",
                condition := some "${approved} == true" }) "")
          ctxT :=
  inline_check_agrees_on_accepting_shapes
    { from' := "gateway1", to' := "end_success", condition := some "${approved} == true" }
    ctxT
    (by intro v hv
        refine ⟨true, ?_⟩
        have h0 : VarCtx.get ctxT "approved" = some (Value.bool true) := by decide
        exact (Option.some.inj (h0.symm.trans hv)).symm)
    (by decide)

/-! ## Claims about task assignment -/

/-- An admin scores `100 + 30` on a priority-80 task. -/
theorem calculate_score_of_admin (w : User) (task : Task) (h : w.role = "admin")
    (hp : task.priority ≥ 80) : calculate_score w task = 130 := by
  simp [calculate_score, h, hp]

/-- A manager scores `80 + 30` on a priority-80 task. -/
theorem calculate_score_of_manager (w : User) (task : Task) (h : w.role = "manager")
    (hp : task.priority ≥ 80) : calculate_score w task = 110 := by
  simp [calculate_score, h, hp]

/-- Any non-admin scores at most `80 + 30` on a priority-80 task. -/
theorem calculate_score_le_of_not_admin (w : User) (task : Task)
    (h : w.role ≠ "admin") (hp : task.priority ≥ 80) : calculate_score w task ≤ 110 := by
  simp only [calculate_score]
  rw [if_pos hp]
  split_ifs <;> first | omega | simp_all

/-- Any non-admin non-manager scores at most `60 + 30` on a priority-80 task. -/
theorem calculate_score_le_of_not_admin_manager (w : User) (task : Task)
    (h1 : w.role ≠ "admin") (h2 : w.role ≠ "manager") (hp : task.priority ≥ 80) :
    calculate_score w task ≤ 90 := by
  simp only [calculate_score]
  rw [if_pos hp]
  split_ifs <;> first | omega | simp_all

/-- The function `priority_assignment` selects the first candidate attaining the maximal
score: it returns some list element whose score no candidate exceeds and whom
no earlier candidate ties. -/
theorem priority_assignment_first_max (task : Task) :
    ∀ users : List User, users ≠ [] →
    ∃ u i, priority_assignment task users = some u
      ∧ users.get? i = some u
      ∧ (∀ v ∈ users, calculate_score v task ≤ calculate_score u task)
      ∧ ∀ j v, j < i → users.get? j = some v →
          calculate_score v task < calculate_score u task := by
  intro users
  induction users with
  | nil => intro h; exact absurd rfl h
  | cons u us ih =>
    intro _
    by_cases hne : us = []
    · subst hne
      refine ⟨u, 0, rfl, rfl, ?_, ?_⟩
      · intro v hv
        rcases List.mem_singleton.mp hv with rfl
        exact le_refl _
      · intro j v hj _
        exact absurd hj (Nat.not_lt_zero j)
    · obtain ⟨x, i, hx, hget, hmax, hfirst⟩ := ih hne
      have hpa : priority_assignment task (u :: us)
          = if calculate_score x task > calculate_score u task then some x
            else some u := by
        simp only [priority_assignment, hx]
      by_cases hc : calculate_score x task > calculate_score u task
      · refine ⟨x, i + 1, by rw [hpa, if_pos hc], by simpa using hget, ?_, ?_⟩
        · intro w hw
          rcases List.mem_cons.mp hw with rfl | hw
          · exact le_of_lt hc
          · exact hmax w hw
        · intro j w hj hjget
          cases j with
          | zero =>
            have huw : u = w := by simpa using hjget
            subst huw
            exact hc
          | succ j' =>
            exact hfirst j' w (Nat.lt_of_succ_lt_succ hj) (by simpa using hjget)
      · refine ⟨u, 0, by rw [hpa, if_neg hc], rfl, ?_, ?_⟩
        · intro w hw
          rcases List.mem_cons.mp hw with rfl | hw
          · exact le_refl _
          · exact le_trans (hmax w hw) (not_lt.mp hc)
        · intro j w hj _
          exact absurd hj (Nat.not_lt_zero j)

/-- C5: on a non-empty candidate list, priority-based assignment returns the
first candidate attaining the maximal score
`roleWeight + (30 if priority >= 80 else 0)`; consequently on a priority-80
task an admin candidate wins over everyone, and a manager wins when no admin
is present, regardless of list order. -/
theorem priority_assignment_spec (task : Task) (users : List User) (hne : users ≠ []) :
    ∃ u i, priority_assignment task users = some u
      ∧ users.get? i = some u
      ∧ (∀ v ∈ users, calculate_score v task ≤ calculate_score u task)
      ∧ (∀ j v, j < i → users.get? j = some v →
          calculate_score v task < calculate_score u task)
      ∧ (task.priority ≥ 80 →
          ((∃ w ∈ users, w.role = "admin") → u.role = "admin")
          ∧ ((∀ w ∈ users, w.role ≠ "admin") →
              (∃ w ∈ users, w.role = "manager") → u.role = "manager")) := by
  obtain ⟨u, i, h1, h2, h3, h4⟩ := priority_assignment_first_max task users hne
  have humem : u ∈ users := List.get?_mem h2
  refine ⟨u, i, h1, h2, h3, h4, fun hp => ⟨?_, ?_⟩⟩
  · rintro ⟨w, hw, hwadmin⟩
    by_contra hu
    have ha := h3 w hw
    rw [calculate_score_of_admin w task hwadmin hp] at ha
    have hb := calculate_score_le_of_not_admin u task hu hp
    omega
  · intro hnoadmin
    rintro ⟨w, hw, hwman⟩
    by_contra hu
    have ha := h3 w hw
    rw [calculate_score_of_manager w task hwman hp] at ha
    have hb := calculate_score_le_of_not_admin_manager u task (hnoadmin u humem) hu hp
    omega

/-- Witness for C5 at the script's candidate list (user, manager, admin in
that order) and its priority-80 task. -/
theorem priority_assignment_spec_witness :
    ∃ u i, priority_assignment task80 demoUsers = some u
      ∧ demoUsers.get? i = some u
      ∧ (∀ v ∈ demoUsers, calculate_score v task80 ≤ calculate_score u task80)
      ∧ (∀ j v, j < i → demoUsers.get? j = some v →
          calculate_score v task80 < calculate_score u task80)
      ∧ (task80.priority ≥ 80 →
          ((∃ w ∈ demoUsers, w.role = "admin") → u.role = "admin")
          ∧ ((∀ w ∈ demoUsers, w.role ≠ "admin") →
              (∃ w ∈ demoUsers, w.role = "manager") → u.role = "manager")) :=
  priority_assignment_spec task80 demoUsers (by decide)

/-! ## Round-robin assignment -/

/-- Stepping `rr_run` from a state whose stored index for the key is the
natural number `j`: call `k` returns the candidate at index `(j + 1 + k)`
modulo the candidate count. -/
theorem rr_run_from (users : List User) (key : String) (hne : users ≠ []) :
    ∀ (N j : Nat) (st : RRState), st key = some ((j : Nat) : Int) →
    rr_run users key N st
      = (List.range N).map (fun k => users.get? ((j + 1 + k) % users.length)) := by
  intro N
  induction N with
  | zero => intro j st _; rfl
  | succ n ih =>
    intro j st hst
    have hie : users.isEmpty = false := by simpa [List.isEmpty_iff] using hne
    have hnext : ((j : Int) + 1) % (users.length : Int)
        = (((j + 1) % users.length : Nat) : Int) := by
      rw [Int.natCast_mod]
      push_cast
      rfl
    have hstep : rr_assign st users key
        = (users.get? ((j + 1) % users.length),
            fun k => if k = key then some (((j + 1) % users.length : Nat) : Int)
              else st k) := by
      simp only [rr_assign, hie, Bool.false_eq_true, if_false, hst, Option.getD_some,
        hnext, Int.toNat_natCast]
    have hih := ih ((j + 1) % users.length)
      (fun k => if k = key then some (((j + 1) % users.length : Nat) : Int) else st k)
      (by simp)
    have hfun : ∀ k : Nat, ((j + 1) % users.length + 1 + k) % users.length
        = (j + 1 + (k + 1)) % users.length := by
      intro k
      have h1 : (j + 1) % users.length + 1 + k
          = (j + 1) % users.length + (1 + k) := by omega
      rw [h1, Nat.mod_add_mod]
      congr 1
      omega
    show (rr_assign st users key).1 :: rr_run users key n (rr_assign st users key).2 = _
    rw [hstep]
    simp only [hih]
    rw [List.range_succ_eq_map, List.map_cons, List.map_map]
    simp [Function.comp, hfun]

/-- Running round-robin from the fresh (empty-dict) state: call `k` returns
the candidate at index `k` modulo the candidate count — the per-key index
starts at `-1`, advances by one per call, and persists across calls. -/
theorem rr_run_rr_empty (users : List User) (key : String) (hne : users ≠ [])
    (N : Nat) :
    rr_run users key N rr_empty
      = (List.range N).map (fun k => users.get? (k % users.length)) := by
  cases N with
  | zero => rfl
  | succ n =>
    have hie : users.isEmpty = false := by simpa [List.isEmpty_iff] using hne
    have hzero : ((-1 : Int) + 1) % (users.length : Int) = ((0 : Nat) : Int) := by
      simp
    have hstep : rr_assign rr_empty users key
        = (users.get? 0,
            fun k => if k = key then some ((0 : Nat) : Int) else rr_empty k) := by
      simp only [rr_assign, hie, Bool.false_eq_true, if_false, rr_empty,
        Option.getD_none, hzero, Int.toNat_natCast]
    have hih := rr_run_from users key hne n 0
      (fun k => if k = key then some ((0 : Nat) : Int) else rr_empty k) (by simp)
    have hfun : ∀ k : Nat, (0 + 1 + k) % users.length = (k + 1) % users.length := by
      intro k
      congr 1
      omega
    show (rr_assign rr_empty users key).1
        :: rr_run users key n (rr_assign rr_empty users key).2 = _
    rw [hstep]
    simp only [hih]
    rw [List.range_succ_eq_map, List.map_cons, List.map_map]
    simp [Function.comp, hfun]

/-- Among `0, 1, …, N-1` exactly `N / M` or `N / M + 1` numbers are congruent
to a fixed residue `i < M`: precisely `N / M` plus one more when `i < N % M`. -/
theorem count_mod_range (M i : Nat) (hi : i < M) :
    ∀ N : Nat, ((List.range N).filter (fun k => k % M = i)).length
      = N / M + (if i < N % M then 1 else 0) := by
  have hM : 0 < M := Nat.lt_of_le_of_lt (Nat.zero_le i) hi
  intro N
  induction N with
  | zero => simp
  | succ n ihn =>
    rw [List.range_succ, List.filter_append, List.length_append, ihn]
    have hdm := Nat.div_add_mod n M
    have hr : n % M < M := Nat.mod_lt n hM
    have hsingle : ([n].filter (fun k => k % M = i)).length
        = if n % M = i then 1 else 0 := by
      by_cases h : n % M = i <;> simp [h]
    rw [hsingle]
    by_cases hcase : n % M + 1 = M
    · have h1 : (n + 1) / M = n / M + 1 ∧ (n + 1) % M = 0 := by
        rw [Nat.div_mod_unique hM]
        rw [Nat.mul_add, Nat.mul_one]
        constructor
        · generalize hA : M * (n / M) = A at hdm ⊢
          omega
        · exact hM
      rw [h1.1, h1.2]
      split_ifs <;> omega
    · have h1 : (n + 1) / M = n / M ∧ (n + 1) % M = n % M + 1 := by
        rw [Nat.div_mod_unique hM]
        constructor
        · generalize hA : M * (n / M) = A at hdm ⊢
          omega
        · omega
      rw [h1.1, h1.2]
      split_ifs <;> omega

/-- C6: running round-robin `N` times on `M` distinct candidates with one node
key from the fresh state returns, at call `k`, the candidate at index
`k mod M` (the per-key index advances by one per call and persists), and hence
returns each candidate exactly `⌊N/M⌋` or `⌈N/M⌉` times. -/
theorem round_robin_cycle_counts (users : List User) (node_key : String) (N : Nat)
    (hnd : users.Nodup) (hne : users ≠ []) (hN : users.length < N) :
    rr_run users node_key N rr_empty
      = (List.range N).map (fun k => users.get? (k % users.length))
    ∧ ∀ u ∈ users,
        (rr_run users node_key N rr_empty).count (some u) = N / users.length
        ∨ (rr_run users node_key N rr_empty).count (some u)
          = (N + users.length - 1) / users.length := by
  have hrun := rr_run_rr_empty users node_key hne N
  refine ⟨hrun, ?_⟩
  intro u hu
  have hMpos : 0 < users.length := List.length_pos.mpr hne
  obtain ⟨iu, hiu⟩ := List.mem_iff_get?.mp hu
  have hiuM : iu < users.length := (List.get?_eq_some.mp hiu).choose
  have hiu2 : users[iu]? = some u := by
    rw [← List.get?_eq_getElem?]
    exact hiu
  have hpt : ∀ k ∈ List.range N,
      (users.get? (k % users.length) == some u) = decide (k % users.length = iu) := by
    intro k _
    rw [List.get?_eq_getElem?]
    by_cases hk : k % users.length = iu
    · simp [hk, hiu2]
    · have hne2 : users[k % users.length]? ≠ some u := by
        intro hcontra
        exact hk (List.getElem?_inj (Nat.mod_lt k hMpos) hnd (hcontra.trans hiu2.symm))
      simp [beq_iff_eq, hne2, hk]
  have hcount : ((List.range N).map (fun k => users.get? (k % users.length))).count
        (some u)
      = ((List.range N).filter (fun k => k % users.length = iu)).length := by
    rw [List.count_eq_countP, List.countP_map, List.countP_eq_length_filter]
    exact congrArg List.length (List.filter_congr hpt)
  rw [hrun, hcount, count_mod_range users.length iu hiuM N]
  by_cases hlt : iu < N % users.length
  · right
    rw [if_pos hlt]
    have hdm := Nat.div_add_mod N users.length
    have hrlt : N % users.length < users.length := Nat.mod_lt N hMpos
    have hrpos : 0 < N % users.length := Nat.lt_of_le_of_lt (Nat.zero_le iu) hlt
    have hceil : (N + users.length - 1) / users.length = N / users.length + 1 := by
      refine ((Nat.div_mod_unique (a := N + users.length - 1) (b := users.length)
        (c := N % users.length - 1) (d := N / users.length + 1) hMpos).mpr ?_).1
      rw [Nat.mul_add, Nat.mul_one]
      constructor
      · generalize hA : users.length * (N / users.length) = A at hdm ⊢
        omega
      · omega
    rw [hceil]
  · left
    rw [if_neg hlt, Nat.add_zero]

/-- Witness for C6 at the script's three candidates, four calls on one node
key: the run is `user1, user2, admin1, user1` and `user1` is returned
`⌈4/3⌉ = 2` times. -/
theorem round_robin_cycle_counts_witness :
    rr_run demoUsers "default" 4 rr_empty
      = (List.range 4).map (fun k => demoUsers.get? (k % demoUsers.length))
    ∧ ((rr_run demoUsers "default" 4 rr_empty).count (some demoU1)
          = 4 / demoUsers.length
        ∨ (rr_run demoUsers "default" 4 rr_empty).count (some demoU1)
          = (4 + demoUsers.length - 1) / demoUsers.length) :=
  ⟨(round_robin_cycle_counts demoUsers "default" 4 (by decide) (by decide)
      (by decide)).1,
    (round_robin_cycle_counts demoUsers "default" 4 (by decide) (by decide)
      (by decide)).2 demoU1 (by decide)⟩

end MiniFlow
